import Mathlib

/-!
# Shallow embedding of the sumologic docker logging driver pipeline

The repository contains two snapshots of the driver source:

* `driver.go` — pipeline manager (`startLoggingInternal`, `StopLogging`),
  the decoder loop `consumeLogsFromFile`, and the sender implementation
  `makePostRequest` / `writeMessage` / `writeMessageGzipCompression`.
* an unnamed file (`part_000`) — the batching pipeline: a decoder loop
  `consumeLogsFromFile` of identical shape, `batchLogs`,
  `pushBatchToQueue`, `handleBatchedLogs` and a header-less `sendLogs`.

Bytes are modelled as `List Nat`; Go maps as functions `String → Option _`;
channels consumed by a single goroutine as explicit event lists.
-/

/-- One decoded protobuf `logdriver.LogEntry`: payload bytes, source tag,
nanosecond timestamp and partial flag.  The Go code renders `TimeNano`
through `time.Unix(0, ·).String()`; the rendering is injective in the
nanosecond value, so the model keeps the timestamp as the integer. -/
structure LogEntry where
  line : List Nat
  source : String
  timeNano : Int
  isPartial : Bool
deriving DecidableEq

/-- The `sumoLog` record type (identical in the two source files):
`{line, source, time, isPartial}`. -/
structure sumoLog where
  line : List Nat
  source : String
  time : Int
  isPartial : Bool
deriving DecidableEq

/-- The zero `logdriver.LogEntry` — the state of the reused decode buffer
right after `log.Reset()` (or at `var log logdriver.LogEntry`). -/
def LogEntry.reset : LogEntry :=
  { line := [], source := "", timeNano := 0, isPartial := false }

/-- The inline struct literal both decoder loops build from the decode
buffer: `&sumoLog{line: log.Line, source: log.Source, time: ..., isPartial:
log.Partial}`. -/
def mkSumoLog (e : LogEntry) : sumoLog :=
  { line := e.line, source := e.source, time := e.timeNano, isPartial := e.isPartial }

/-- Result of one `dec.ReadMsg(&log)` call on the framed byte stream:
end of stream, a non-EOF decode error (carrying the state the reused
buffer is left in by the failed read — for a corrupt length prefix the
read fails before touching the buffer, so it stays `LogEntry.reset`),
or a successfully decoded entry. -/
inductive ReadResult where
  | eof : ReadResult
  | readErr (junk : LogEntry) : ReadResult
  | ok (e : LogEntry) : ReadResult
deriving DecidableEq

/-- The decoder loop `consumeLogsFromFile` (same control flow in both
source files), as the list of records it emits onto `logQueue` for a given
sequence of `ReadMsg` results.  On `io.EOF` it closes the input file and
the record queue and returns.  On any other error it logs the error and
reconstructs the delimited reader on the same stream — and then FALLS
THROUGH to the struct literal, emitting a record built from the residual
decode buffer, before `log.Reset()` and the next iteration. -/
def consumeLogsFromFile : List ReadResult → List sumoLog
  | [] => []
  | ReadResult.eof :: _ => []
  | ReadResult.readErr junk :: rs => mkSumoLog junk :: consumeLogsFromFile rs
  | ReadResult.ok e :: rs => mkSumoLog e :: consumeLogsFromFile rs

/-- Whether the decoder loop terminated by closing the record queue
(it does exactly when the read results reach `io.EOF`). -/
def consumeClosesQueue : List ReadResult → Bool
  | [] => false
  | ReadResult.eof :: _ => true
  | ReadResult.readErr _ :: rs => consumeClosesQueue rs
  | ReadResult.ok _ :: rs => consumeClosesQueue rs

/-- The batch accumulator `sumoLogBatch {logs, sizeBytes}`. -/
structure sumoLogBatch where
  logs : List sumoLog
  sizeBytes : Nat
deriving DecidableEq

/-- `NewSumoLogBatch()`: empty batch. -/
def NewSumoLogBatch : sumoLogBatch := { logs := [], sizeBytes := 0 }

/-- One wake-up of the `batchLogs` select loop: a record arriving on
`logQueue`, a ticker tick, or `logQueue` closing. -/
inductive BatchEvent where
  | recv (l : sumoLog) : BatchEvent
  | tick : BatchEvent
  | closeEvt : BatchEvent
deriving DecidableEq

/-- The `batchLogs` goroutine, as the sequence of batches it hands to
`logBatchQueue` given the sequence of select-loop events, starting from
accumulator state `b`.  Mirrors the Go loop:

* record with `len(log.line) > batchSize` → warn and `continue` (dropped);
* record that would push `sizeBytes` over `batchSize` → the current batch
  is pushed (`pushBatchToQueue`, which resets the accumulator), then the
  record is appended to the now-empty accumulator;
* otherwise the record is appended;
* tick with a non-empty accumulator → the current batch is pushed;
* queue close → the accumulator's logs are sent on `logBatchQueue`
  unconditionally (even when empty), the batch queue is closed, return. -/
def batchLogs (batchSize : Nat) : List BatchEvent → sumoLogBatch → List (List sumoLog)
  | [], _ => []
  | BatchEvent.recv l :: es, b =>
      if l.line.length > batchSize then
        batchLogs batchSize es b
      else if b.sizeBytes + l.line.length > batchSize then
        b.logs :: batchLogs batchSize es { logs := [l], sizeBytes := l.line.length }
      else
        batchLogs batchSize es { logs := b.logs ++ [l], sizeBytes := b.sizeBytes + l.line.length }
  | BatchEvent.tick :: es, b =>
      if b.logs.length > 0 then
        b.logs :: batchLogs batchSize es { logs := [], sizeBytes := 0 }
      else
        batchLogs batchSize es b
  | BatchEvent.closeEvt :: _, b => [b.logs]

/-- The records carried by a list of select-loop events, in arrival order. -/
def eventRecords : List BatchEvent → List sumoLog
  | [] => []
  | BatchEvent.recv l :: es => l :: eventRecords es
  | BatchEvent.tick :: es => eventRecords es
  | BatchEvent.closeEvt :: es => eventRecords es

/-- Cumulative payload size of a batch (what `sizeBytes` tracks). -/
def batchBytes (b : List sumoLog) : Nat := (b.map (fun l => l.line.length)).sum

/-- `pushBatchToQueue` on the buffered channel `logBatchQueue` of capacity
`cap`, with no concurrent consumer: the non-blocking send succeeds iff the
buffer is not full; otherwise the oldest batch is received (dropped with a
logged error) and the new batch is sent. -/
def pushBatchToQueue (cap : Nat) (q : List (List sumoLog)) (b : List sumoLog) :
    List (List sumoLog) :=
  if q.length < cap then q ++ [b] else q.tail ++ [b]

/-- An HTTP POST as `sendLogs` / `makePostRequest` build it via
`http.NewRequest` plus `request.Header.Add` calls: method, target URL,
headers in the order added, and the request body bytes. -/
structure HttpRequest where
  method : String
  url : String
  headers : List (String × String)
  body : List Nat
deriving DecidableEq

/-- `writeMessage` (identical in both files): for each log in order,
write `append(log.line, []byte("\n")...)` — the payload followed by one
newline (byte 10). -/
def writeMessage (logs : List sumoLog) : List Nat :=
  (logs.map (fun l => l.line ++ [10])).flatten

/-- The request `sendLogs` (the unnamed file) builds: a POST of the
`writeMessage` serialization to `httpSourceUrl`.  `sendLogs` never calls
`request.Header.Add`, so the header list is empty. -/
def sendLogsRequest (url : String) (logs : List sumoLog) : HttpRequest :=
  { method := "POST", url := url, headers := [], body := writeMessage logs }

/-- Result of one `httpClient.Do` call: a transport error, or a response
with the given status code. -/
inductive Outcome where
  | transportErr : Outcome
  | resp (status : Nat) : Outcome
deriving DecidableEq

/-- `sendLogs` returns `nil` exactly when `Do` returned no error and the
status was `http.StatusOK` (200); a transport error or any other status is
returned as an error. -/
def attemptSucceeds : Outcome → Bool
  | Outcome.transportErr => false
  | Outcome.resp s => s == 200

/-- One `sendLogs(logs)` call under HTTP outcome `o`: the request it
issues, and whether it returned `nil`. -/
def sendLogs (url : String) (logs : List sumoLog) (o : Outcome) :
    HttpRequest × Bool :=
  (sendLogsRequest url logs, attemptSucceeds o)

/-- The inner retry loop of `handleBatchedLogs` on one dequeued batch:
call `sendLogs`; on error sleep `retryInterval` and retry; on `nil` break.
Given the list of successive HTTP outcomes, returns the requests issued
and whether the loop broke out (it consumes outcomes until the first
success; an outcome list with no success models a still-retrying loop). -/
def handleBatchRetry (url : String) (logs : List sumoLog) :
    List Outcome → List HttpRequest × Bool
  | [] => ([], false)
  | o :: os =>
      if (sendLogs url logs o).2 then ([(sendLogs url logs o).1], true)
      else ((sendLogs url logs o).1 :: (handleBatchRetry url logs os).1,
            (handleBatchRetry url logs os).2)

/-- The outer loop of `handleBatchedLogs`: dequeue batches in FIFO order,
running the retry loop to completion on each before touching the next.
Each batch is paired with its attempts' HTTP outcomes. -/
def handleBatchedLogs (url : String) :
    List (List sumoLog × List Outcome) → List HttpRequest × Bool
  | [] => ([], true)
  | (logs, os) :: rest =>
      if (handleBatchRetry url logs os).2 then
        ((handleBatchRetry url logs os).1 ++ (handleBatchedLogs url rest).1,
         (handleBatchedLogs url rest).2)
      else ((handleBatchRetry url logs os).1, false)

/-- The sender-relevant `sumoLogger` configuration fields from `driver.go`. -/
structure sumoLoggerCfg where
  httpSourceUrl : String
  gzipCompression : Bool
  gzipCompressionLevel : Int
deriving DecidableEq

/-- The request `makePostRequest` (driver.go) builds, or `none` when
`len(logs) == 0` (it returns `nil` without issuing any request).  The body
is the `writeMessage` serialization, streamed through
`gzip.NewWriterLevel(·, gzipCompressionLevel)` when `gzipCompression` is
set — the compressor is the parameter `gzipFn`, applied to the level and
the uncompressed bytes, so `writeMessageGzipCompression w logs =
gzipFn level (writeMessage logs)`.  Headers are added in source order:
`Content-Type: text/plain`, then `Content-Encoding: gzip` iff compressing. -/
def makePostRequest (cfg : sumoLoggerCfg) (gzipFn : Int → List Nat → List Nat)
    (logs : List sumoLog) : Option HttpRequest :=
  if logs.length = 0 then none
  else some
    { method := "POST"
      url := cfg.httpSourceUrl
      headers := ("Content-Type", "text/plain") ::
        (if cfg.gzipCompression then [("Content-Encoding", "gzip")] else [])
      body := if cfg.gzipCompression then
          gzipFn cfg.gzipCompressionLevel (writeMessage logs)
        else writeMessage logs }

/-- `startLoggingInternal` (driver.go).  The registry `loggers` is the
driver's `map[string]*sumoLogger`.  Under the mutex it first checks for an
existing entry and returns the "already exists" error without touching
anything; only then does it open the fifo and build the logger —
`build` is the combined outcome of those fallible external steps
(fifo open, root-CA read), which all happen after the duplicate check. -/
def startLoggingInternal (loggers : String → Option sumoLoggerCfg)
    (file : String) (build : Except String sumoLoggerCfg) :
    (String → Option sumoLoggerCfg) × Except String sumoLoggerCfg :=
  match loggers file with
  | some _ => (loggers, Except.error ("a logger for " ++ file ++ " already exists"))
  | none =>
      match build with
      | Except.error e => (loggers, Except.error e)
      | Except.ok l => (fun k => if k = file then some l else loggers k, Except.ok l)

/-- `StartLogging` (driver.go): call `startLoggingInternal`; on error
return it to the caller; on success start the `consumeLogsFromFile` and
`queueLogsForSending` goroutines and return `nil`.  Result: the new
registry, the returned error (if any), and whether the pipeline
goroutines were started. -/
def StartLogging (loggers : String → Option sumoLoggerCfg) (file : String)
    (build : Except String sumoLoggerCfg) :
    (String → Option sumoLoggerCfg) × Option String × Bool :=
  match startLoggingInternal loggers file build with
  | (reg, Except.error e) => (reg, some e, false)
  | (reg, Except.ok _) => (reg, none, true)

/-- `StopLogging` (driver.go): under the mutex, look up `file`; if
present, close that logger's input file and delete the entry; always
return `nil`.  Result: the new registry, the returned error (always
`none`), and the list of loggers whose input file was closed. -/
def StopLogging (loggers : String → Option sumoLoggerCfg) (file : String) :
    (String → Option sumoLoggerCfg) × Option String × List sumoLoggerCfg :=
  match loggers file with
  | some l => (fun k => if k = file then none else loggers k, none, [l])
  | none => (loggers, none, [])

/-- A concrete one-byte record used by the concrete instances below. -/
def logA : sumoLog := { line := [97], source := "s", time := 0, isPartial := false }

/-- A concrete configuration without compression (the defaults). -/
def cfgPlain : sumoLoggerCfg :=
  { httpSourceUrl := "u", gzipCompression := false, gzipCompressionLevel := -1 }

/-- A concrete configuration with gzip compression at level 6. -/
def cfgGzip : sumoLoggerCfg :=
  { httpSourceUrl := "u", gzipCompression := true, gzipCompressionLevel := 6 }

/-- A concrete registry holding one active logger under identity "f". -/
def regOne : String → Option sumoLoggerCfg :=
  fun k => if k = "f" then some cfgPlain else none

/-- C1.  The spec claims a corrupted frame "yields no record" and that "no
record is fabricated from the failed read".  Evaluating the decoder loop on
a corrupt length prefix followed by one valid frame: the code emits TWO
records — the first fabricated from the reset decode buffer (empty line),
because the non-EOF error branch reconstructs the reader but then falls
through to the emit.  The spec is the evident intent (the error branch
exists to skip the corrupted frame); the missing `continue` is a code bug. -/
theorem consumeLogsFromFile_corrupt_frame_eval :
    consumeLogsFromFile
      [ReadResult.readErr LogEntry.reset,
       ReadResult.ok { line := [97], source := "stdout", timeNano := 5, isPartial := false },
       ReadResult.eof]
    = [mkSumoLog LogEntry.reset,
       { line := [97], source := "stdout", time := 5, isPartial := false }] ∧
    consumeLogsFromFile
      [ReadResult.readErr LogEntry.reset,
       ReadResult.ok { line := [97], source := "stdout", timeNano := 5, isPartial := false },
       ReadResult.eof]
    ≠ [{ line := [97], source := "stdout", time := 5, isPartial := false }] := by
  constructor
  · rfl
  · decide

lemma batchBytes_nil : batchBytes [] = 0 := rfl

lemma batchBytes_append (xs ys : List sumoLog) :
    batchBytes (xs ++ ys) = batchBytes xs + batchBytes ys := by
  simp [batchBytes]

lemma batchBytes_singleton (l : sumoLog) : batchBytes [l] = l.line.length := by
  simp [batchBytes]

lemma batchLogs_nil (bsz : Nat) (b : sumoLogBatch) : batchLogs bsz [] b = [] := rfl

lemma batchLogs_recv_drop (bsz : Nat) (l : sumoLog) (es : List BatchEvent)
    (b : sumoLogBatch) (h : l.line.length > bsz) :
    batchLogs bsz (BatchEvent.recv l :: es) b = batchLogs bsz es b := by
  simp only [batchLogs]
  rw [if_pos h]

lemma batchLogs_recv_flush (bsz : Nat) (l : sumoLog) (es : List BatchEvent)
    (b : sumoLogBatch) (h1 : ¬ l.line.length > bsz)
    (h2 : b.sizeBytes + l.line.length > bsz) :
    batchLogs bsz (BatchEvent.recv l :: es) b
      = b.logs :: batchLogs bsz es { logs := [l], sizeBytes := l.line.length } := by
  simp only [batchLogs]
  rw [if_neg h1, if_pos h2]

lemma batchLogs_recv_append (bsz : Nat) (l : sumoLog) (es : List BatchEvent)
    (b : sumoLogBatch) (h1 : ¬ l.line.length > bsz)
    (h2 : ¬ b.sizeBytes + l.line.length > bsz) :
    batchLogs bsz (BatchEvent.recv l :: es) b
      = batchLogs bsz es
          { logs := b.logs ++ [l], sizeBytes := b.sizeBytes + l.line.length } := by
  simp only [batchLogs]
  rw [if_neg h1, if_neg h2]

lemma batchLogs_tick_flush (bsz : Nat) (es : List BatchEvent) (b : sumoLogBatch)
    (h : b.logs.length > 0) :
    batchLogs bsz (BatchEvent.tick :: es) b
      = b.logs :: batchLogs bsz es { logs := [], sizeBytes := 0 } := by
  simp only [batchLogs]
  rw [if_pos h]

lemma batchLogs_tick_skip (bsz : Nat) (es : List BatchEvent) (b : sumoLogBatch)
    (h : ¬ b.logs.length > 0) :
    batchLogs bsz (BatchEvent.tick :: es) b = batchLogs bsz es b := by
  simp only [batchLogs]
  rw [if_neg h]

lemma batchLogs_close (bsz : Nat) (es : List BatchEvent) (b : sumoLogBatch) :
    batchLogs bsz (BatchEvent.closeEvt :: es) b = [b.logs] := rfl

/-- Main batcher invariant: starting from an accumulator whose `sizeBytes`
correctly tracks its logs and is within the threshold, running any
close-free event sequence whose records all fit the threshold and then
closing yields only within-threshold batches, whose concatenation is the
accumulator's logs followed by the records in arrival order. -/
lemma batchLogs_run_spec (bsz : Nat) :
    ∀ (es : List BatchEvent) (b : sumoLogBatch),
      BatchEvent.closeEvt ∉ es →
      (∀ l ∈ eventRecords es, l.line.length ≤ bsz) →
      b.sizeBytes = batchBytes b.logs →
      b.sizeBytes ≤ bsz →
      (∀ batch ∈ batchLogs bsz (es ++ [BatchEvent.closeEvt]) b, batchBytes batch ≤ bsz)
      ∧ (batchLogs bsz (es ++ [BatchEvent.closeEvt]) b).flatten = b.logs ++ eventRecords es
  | [], b, _, _, htrack, hle => by
      rw [List.nil_append, batchLogs_close]
      constructor
      · intro batch hb
        rw [List.mem_singleton] at hb
        subst hb
        rw [← htrack]
        exact hle
      · simp [eventRecords]
  | BatchEvent.recv l :: es, b, hclose, hsmall, htrack, hle => by
      have hclose' : BatchEvent.closeEvt ∉ es := by
        intro h; exact hclose (List.mem_cons_of_mem _ h)
      have hl : l.line.length ≤ bsz := hsmall l (by simp [eventRecords])
      have hsmall' : ∀ x ∈ eventRecords es, x.line.length ≤ bsz := by
        intro x hx; exact hsmall x (by simp [eventRecords, hx])
      rw [List.cons_append]
      by_cases h2 : b.sizeBytes + l.line.length > bsz
      · rw [batchLogs_recv_flush bsz l _ b (by omega) h2]
        have ih := batchLogs_run_spec bsz es { logs := [l], sizeBytes := l.line.length }
          hclose' hsmall' (by simp [batchBytes_singleton]) hl
        constructor
        · intro batch hb
          rcases List.mem_cons.mp hb with hb | hb
          · subst hb; rw [← htrack]; exact hle
          · exact ih.1 batch hb
        · rw [List.flatten_cons, ih.2]
          simp [eventRecords]
      · rw [batchLogs_recv_append bsz l _ b (by omega) h2]
        have ih := batchLogs_run_spec bsz es
          { logs := b.logs ++ [l], sizeBytes := b.sizeBytes + l.line.length }
          hclose' hsmall'
          (by simp [batchBytes_append, batchBytes_singleton, htrack])
          (by show b.sizeBytes + l.line.length ≤ bsz; omega)
        constructor
        · exact ih.1
        · rw [ih.2]
          simp [eventRecords]
  | BatchEvent.tick :: es, b, hclose, hsmall, htrack, hle => by
      have hclose' : BatchEvent.closeEvt ∉ es := by
        intro h; exact hclose (List.mem_cons_of_mem _ h)
      have hsmall' : ∀ x ∈ eventRecords es, x.line.length ≤ bsz := by
        intro x hx; exact hsmall x (by simp [eventRecords, hx])
      rw [List.cons_append]
      by_cases h : b.logs.length > 0
      · rw [batchLogs_tick_flush bsz _ b h]
        have ih := batchLogs_run_spec bsz es { logs := [], sizeBytes := 0 }
          hclose' hsmall' (by simp [batchBytes_nil]) (Nat.zero_le _)
        constructor
        · intro batch hb
          rcases List.mem_cons.mp hb with hb | hb
          · subst hb; rw [← htrack]; exact hle
          · exact ih.1 batch hb
        · rw [List.flatten_cons, ih.2]
          simp [eventRecords]
      · rw [batchLogs_tick_skip bsz _ b h]
        have hnil : b.logs = [] := List.length_eq_zero.mp (by omega)
        have ih := batchLogs_run_spec bsz es b hclose' hsmall' htrack hle
        constructor
        · exact ih.1
        · rw [ih.2]
          simp [eventRecords]
  | BatchEvent.closeEvt :: es, b, hclose, _, _, _ => by
      exact absurd (List.mem_cons_self _ _) hclose

/-- C3.  For every close-free event sequence whose records each fit the
batch-size threshold, every batch `batchLogs` hands to `logBatchQueue`
(SIZE flushes, TIME flushes, and the final hand-off on queue close) has
cumulative payload size at most the threshold, and the concatenation of the
handed-off batches is exactly the record sequence in arrival order. -/
theorem batchLogs_size_bound_partition (bsz : Nat) (es : List BatchEvent)
    (hclose : BatchEvent.closeEvt ∉ es)
    (hsmall : ∀ l ∈ eventRecords es, l.line.length ≤ bsz) :
    (∀ batch ∈ batchLogs bsz (es ++ [BatchEvent.closeEvt]) NewSumoLogBatch,
        batchBytes batch ≤ bsz)
    ∧ (batchLogs bsz (es ++ [BatchEvent.closeEvt]) NewSumoLogBatch).flatten
        = eventRecords es := by
  have h := batchLogs_run_spec bsz es NewSumoLogBatch hclose hsmall rfl (Nat.zero_le _)
  exact ⟨h.1, by rw [h.2]; rfl⟩

/-- Witness for C3 at the spec's own scenario: three 100-byte records,
threshold 250 — batches `[r1, r2]` (200 bytes) and `[r3]` (100 bytes). -/
theorem batchLogs_size_bound_partition_witness :
    (BatchEvent.closeEvt ∉
        [BatchEvent.recv { line := List.replicate 100 1, source := "s", time := 0, isPartial := false },
         BatchEvent.recv { line := List.replicate 100 2, source := "s", time := 0, isPartial := false },
         BatchEvent.recv { line := List.replicate 100 3, source := "s", time := 0, isPartial := false }]
      ∧ ∀ l ∈ eventRecords
          [BatchEvent.recv { line := List.replicate 100 1, source := "s", time := 0, isPartial := false },
           BatchEvent.recv { line := List.replicate 100 2, source := "s", time := 0, isPartial := false },
           BatchEvent.recv { line := List.replicate 100 3, source := "s", time := 0, isPartial := false }],
          l.line.length ≤ 250)
    ∧ ((∀ batch ∈ batchLogs 250
          ([BatchEvent.recv { line := List.replicate 100 1, source := "s", time := 0, isPartial := false },
            BatchEvent.recv { line := List.replicate 100 2, source := "s", time := 0, isPartial := false },
            BatchEvent.recv { line := List.replicate 100 3, source := "s", time := 0, isPartial := false }]
            ++ [BatchEvent.closeEvt]) NewSumoLogBatch,
          batchBytes batch ≤ 250)
      ∧ (batchLogs 250
          ([BatchEvent.recv { line := List.replicate 100 1, source := "s", time := 0, isPartial := false },
            BatchEvent.recv { line := List.replicate 100 2, source := "s", time := 0, isPartial := false },
            BatchEvent.recv { line := List.replicate 100 3, source := "s", time := 0, isPartial := false }]
            ++ [BatchEvent.closeEvt]) NewSumoLogBatch).flatten
          = eventRecords
            [BatchEvent.recv { line := List.replicate 100 1, source := "s", time := 0, isPartial := false },
             BatchEvent.recv { line := List.replicate 100 2, source := "s", time := 0, isPartial := false },
             BatchEvent.recv { line := List.replicate 100 3, source := "s", time := 0, isPartial := false }]) :=
  ⟨⟨by decide, by decide⟩, batchLogs_size_bound_partition 250 _ (by decide) (by decide)⟩

lemma pushBatchToQueue_length (cap : Nat) (q : List (List sumoLog))
    (b : List sumoLog) (hcap : 0 < cap) (hq : q.length ≤ cap) :
    (pushBatchToQueue cap q b).length ≤ cap := by
  unfold pushBatchToQueue
  split
  · simp only [List.length_append, List.length_singleton]
    omega
  · simp only [List.length_append, List.length_singleton, List.length_tail]
    omega

lemma foldl_pushBatchToQueue_length (cap : Nat) (hcap : 0 < cap) :
    ∀ (bs : List (List sumoLog)) (q : List (List sumoLog)), q.length ≤ cap →
      (List.foldl (pushBatchToQueue cap) q bs).length ≤ cap
  | [], _, hq => hq
  | b :: bs, q, hq => by
      rw [List.foldl_cons]
      exact foldl_pushBatchToQueue_length cap hcap bs _
        (pushBatchToQueue_length cap q b hcap hq)

/-- C4.  With a positive capacity and no concurrent consumer, `pushBatchToQueue`
keeps the batch queue within capacity (also across any sequence of pushes);
a push into a non-full queue appends; a push into a full queue removes
exactly the oldest batch and appends the new one, keeping the remaining
batches in their FIFO order (`q.tail ++ [b]`). -/
theorem pushBatchToQueue_capacity_evict_oldest (cap : Nat)
    (q : List (List sumoLog)) (b : List sumoLog)
    (hcap : 0 < cap) (hq : q.length ≤ cap) :
    (pushBatchToQueue cap q b).length ≤ cap
    ∧ (q.length < cap → pushBatchToQueue cap q b = q ++ [b])
    ∧ (q.length = cap → pushBatchToQueue cap q b = q.tail ++ [b])
    ∧ ∀ bs : List (List sumoLog),
        (List.foldl (pushBatchToQueue cap) q bs).length ≤ cap := by
  refine ⟨pushBatchToQueue_length cap q b hcap hq, ?_, ?_, ?_⟩
  · intro h
    unfold pushBatchToQueue
    rw [if_pos h]
  · intro h
    unfold pushBatchToQueue
    rw [if_neg (by omega)]
  · intro bs
    exact foldl_pushBatchToQueue_length cap hcap bs q hq

/-- Witness for C4 at the spec's scenario: capacity 2 and a full queue —
the push evicts the oldest batch and admits the new one. -/
theorem pushBatchToQueue_capacity_evict_oldest_witness :
    (0 < 2
      ∧ ([[{ line := [1], source := "s", time := 0, isPartial := false }],
          [{ line := [2], source := "s", time := 0, isPartial := false }]] :
            List (List sumoLog)).length ≤ 2)
    ∧ (pushBatchToQueue 2
        [[{ line := [1], source := "s", time := 0, isPartial := false }],
         [{ line := [2], source := "s", time := 0, isPartial := false }]]
        [{ line := [3], source := "s", time := 0, isPartial := false }]).length ≤ 2
    ∧ pushBatchToQueue 2
        [[{ line := [1], source := "s", time := 0, isPartial := false }],
         [{ line := [2], source := "s", time := 0, isPartial := false }]]
        [{ line := [3], source := "s", time := 0, isPartial := false }]
      = [[{ line := [1], source := "s", time := 0, isPartial := false }],
         [{ line := [2], source := "s", time := 0, isPartial := false }]].tail
        ++ [[{ line := [3], source := "s", time := 0, isPartial := false }]] :=
  ⟨⟨by decide, by decide⟩,
    (pushBatchToQueue_capacity_evict_oldest 2 _ _ (by decide) (by decide)).1,
    (pushBatchToQueue_capacity_evict_oldest 2 _ _ (by decide) (by decide)).2.2.1 rfl⟩

lemma handleBatchRetry_spec (url : String) (logs : List sumoLog) :
    ∀ os : List Outcome, Outcome.resp 200 ∈ os →
      (handleBatchRetry url logs os).2 = true
      ∧ (handleBatchRetry url logs os).1.length
          = (os.takeWhile (fun o => !(attemptSucceeds o))).length + 1
      ∧ ∀ r ∈ (handleBatchRetry url logs os).1, r = sendLogsRequest url logs
  | [], h => absurd h (List.not_mem_nil _)
  | o :: os, h => by
      by_cases hs : attemptSucceeds o = true
      · have hfst : (sendLogs url logs o).2 = true := hs
        refine ⟨?_, ?_, ?_⟩
        · simp [handleBatchRetry, hfst]
        · simp [handleBatchRetry, hfst, List.takeWhile, hs]
        · intro r hr
          simp [handleBatchRetry, hfst] at hr
          simp [hr, sendLogs]
      · have ho : o ≠ Outcome.resp 200 := by
          intro he; subst he; exact hs rfl
        have hmem : Outcome.resp 200 ∈ os := by
          rcases List.mem_cons.mp h with h' | h'
          · exact absurd h'.symm ho
          · exact h'
        have ih := handleBatchRetry_spec url logs os hmem
        have hfst : (sendLogs url logs o).2 = false := by
          simpa [sendLogs] using hs
        refine ⟨?_, ?_, ?_⟩
        · simp [handleBatchRetry, hfst, ih.1]
        · simp [handleBatchRetry, hfst, List.takeWhile, hs, ih.2.1]
        · intro r hr
          simp [handleBatchRetry, hfst] at hr
          rcases hr with hr | hr
          · simp [hr, sendLogs]
          · exact ih.2.2 r hr

/-- C2.  When the retry loop on a dequeued batch eventually sees an HTTP
200 with no transport error, it terminates successfully; it issues exactly
one request per failed attempt plus the succeeding one; every request it
issues is the very same request (hence a byte-identical body, the batch's
records serialized once each in order); and the outer loop hands its
requests on ahead of the next batch's exactly when the retry loop
succeeded. -/
theorem handleBatchedLogs_retry_spec (url : String) (logs : List sumoLog)
    (os : List Outcome) (hsucc : Outcome.resp 200 ∈ os) :
    (handleBatchRetry url logs os).2 = true
    ∧ (handleBatchRetry url logs os).1.length
        = (os.takeWhile (fun o => !(attemptSucceeds o))).length + 1
    ∧ (∀ r ∈ (handleBatchRetry url logs os).1, r = sendLogsRequest url logs)
    ∧ (sendLogsRequest url logs).body = writeMessage logs
    ∧ ∀ rest, handleBatchedLogs url ((logs, os) :: rest)
        = ((handleBatchRetry url logs os).1 ++ (handleBatchedLogs url rest).1,
           (handleBatchedLogs url rest).2) := by
  have h := handleBatchRetry_spec url logs os hsucc
  refine ⟨h.1, h.2.1, h.2.2, rfl, ?_⟩
  intro rest
  simp [handleBatchedLogs, h.1]

/-- Witness for C2 at the spec's scenario: HTTP 500 twice then 200 —
exactly three attempts, identical request each time. -/
theorem handleBatchedLogs_retry_spec_witness :
    (Outcome.resp 200 ∈ [Outcome.resp 500, Outcome.resp 500, Outcome.resp 200])
    ∧ ((handleBatchRetry "u" [{ line := [97], source := "s", time := 0, isPartial := false }]
          [Outcome.resp 500, Outcome.resp 500, Outcome.resp 200]).2 = true
      ∧ (handleBatchRetry "u" [{ line := [97], source := "s", time := 0, isPartial := false }]
          [Outcome.resp 500, Outcome.resp 500, Outcome.resp 200]).1.length
          = ([Outcome.resp 500, Outcome.resp 500, Outcome.resp 200].takeWhile
              (fun o => !(attemptSucceeds o))).length + 1
      ∧ (∀ r ∈ (handleBatchRetry "u"
            [{ line := [97], source := "s", time := 0, isPartial := false }]
            [Outcome.resp 500, Outcome.resp 500, Outcome.resp 200]).1,
          r = sendLogsRequest "u"
            [{ line := [97], source := "s", time := 0, isPartial := false }])
      ∧ (sendLogsRequest "u"
          [{ line := [97], source := "s", time := 0, isPartial := false }]).body
          = writeMessage [{ line := [97], source := "s", time := 0, isPartial := false }]
      ∧ ∀ rest, handleBatchedLogs "u"
          (([{ line := [97], source := "s", time := 0, isPartial := false }],
            [Outcome.resp 500, Outcome.resp 500, Outcome.resp 200]) :: rest)
          = ((handleBatchRetry "u"
                [{ line := [97], source := "s", time := 0, isPartial := false }]
                [Outcome.resp 500, Outcome.resp 500, Outcome.resp 200]).1
              ++ (handleBatchedLogs "u" rest).1,
             (handleBatchedLogs "u" rest).2)) :=
  ⟨by decide, handleBatchedLogs_retry_spec "u" _ _ (by decide)⟩

lemma batchLogs_skip_oversized (bsz : Nat) (l : sumoLog)
    (hbig : l.line.length > bsz) :
    ∀ (es₁ es₂ : List BatchEvent) (b : sumoLogBatch),
      batchLogs bsz (es₁ ++ BatchEvent.recv l :: es₂) b
        = batchLogs bsz (es₁ ++ es₂) b
  | [], es₂, b => by
      rw [List.nil_append, List.nil_append, batchLogs_recv_drop bsz l es₂ b hbig]
  | BatchEvent.recv x :: es₁, es₂, b => by
      rw [List.cons_append, List.cons_append]
      by_cases h1 : x.line.length > bsz
      · rw [batchLogs_recv_drop _ _ _ _ h1, batchLogs_recv_drop _ _ _ _ h1]
        exact batchLogs_skip_oversized bsz l hbig es₁ es₂ b
      · by_cases h2 : b.sizeBytes + x.line.length > bsz
        · rw [batchLogs_recv_flush _ _ _ _ h1 h2, batchLogs_recv_flush _ _ _ _ h1 h2,
            batchLogs_skip_oversized bsz l hbig es₁ es₂ _]
        · rw [batchLogs_recv_append _ _ _ _ h1 h2, batchLogs_recv_append _ _ _ _ h1 h2,
            batchLogs_skip_oversized bsz l hbig es₁ es₂ _]
  | BatchEvent.tick :: es₁, es₂, b => by
      rw [List.cons_append, List.cons_append]
      by_cases h : b.logs.length > 0
      · rw [batchLogs_tick_flush _ _ _ h, batchLogs_tick_flush _ _ _ h,
          batchLogs_skip_oversized bsz l hbig es₁ es₂ _]
      · rw [batchLogs_tick_skip _ _ _ h, batchLogs_tick_skip _ _ _ h]
        exact batchLogs_skip_oversized bsz l hbig es₁ es₂ b
  | BatchEvent.closeEvt :: es₁, es₂, b => by
      rw [List.cons_append, List.cons_append, batchLogs_close, batchLogs_close]

lemma batchLogs_mem_source (bsz : Nat) :
    ∀ (es : List BatchEvent) (b : sumoLogBatch) (batch : List sumoLog),
      batch ∈ batchLogs bsz es b → ∀ x ∈ batch,
        x ∈ b.logs ∨ (x ∈ eventRecords es ∧ x.line.length ≤ bsz)
  | [], b, batch, hb => by
      rw [batchLogs_nil] at hb
      exact absurd hb (List.not_mem_nil _)
  | BatchEvent.recv l :: es, b, batch, hb => by
      intro x hx
      by_cases h1 : l.line.length > bsz
      · rw [batchLogs_recv_drop _ _ _ _ h1] at hb
        rcases batchLogs_mem_source bsz es b batch hb x hx with h | ⟨h, hlen⟩
        · exact Or.inl h
        · exact Or.inr ⟨List.mem_cons_of_mem l h, hlen⟩
      · by_cases h2 : b.sizeBytes + l.line.length > bsz
        · rw [batchLogs_recv_flush _ _ _ _ h1 h2] at hb
          rcases List.mem_cons.mp hb with hb' | hb'
          · subst hb'; exact Or.inl hx
          · rcases batchLogs_mem_source bsz es _ batch hb' x hx with h | ⟨h, hlen⟩
            · have h' : x ∈ [l] := h
              rw [List.mem_singleton] at h'
              subst h'
              exact Or.inr ⟨List.mem_cons_self _ _, by omega⟩
            · exact Or.inr ⟨List.mem_cons_of_mem l h, hlen⟩
        · rw [batchLogs_recv_append _ _ _ _ h1 h2] at hb
          rcases batchLogs_mem_source bsz es _ batch hb x hx with h | ⟨h, hlen⟩
          · have h' : x ∈ b.logs ++ [l] := h
            rcases List.mem_append.mp h' with h'' | h''
            · exact Or.inl h''
            · rw [List.mem_singleton] at h''
              subst h''
              exact Or.inr ⟨List.mem_cons_self _ _, by omega⟩
          · exact Or.inr ⟨List.mem_cons_of_mem l h, hlen⟩
  | BatchEvent.tick :: es, b, batch, hb => by
      intro x hx
      by_cases h : b.logs.length > 0
      · rw [batchLogs_tick_flush _ _ _ h] at hb
        rcases List.mem_cons.mp hb with hb' | hb'
        · subst hb'; exact Or.inl hx
        · rcases batchLogs_mem_source bsz es _ batch hb' x hx with h' | ⟨h', hlen⟩
          · exact absurd (show x ∈ ([] : List sumoLog) from h') (List.not_mem_nil _)
          · exact Or.inr ⟨h', hlen⟩
      · rw [batchLogs_tick_skip _ _ _ h] at hb
        rcases batchLogs_mem_source bsz es b batch hb x hx with h' | ⟨h', hlen⟩
        · exact Or.inl h'
        · exact Or.inr ⟨h', hlen⟩
  | BatchEvent.closeEvt :: es, b, batch, hb => by
      intro x hx
      rw [batchLogs_close, List.mem_singleton] at hb
      subst hb
      exact Or.inl hx

/-- C5.  A record whose payload exceeds the batch-size threshold is inert:
the batcher's output on any event sequence containing it equals the output
on the sequence without it (so it reaches no batch and all later records
are batched exactly as they would have been), and such a record is a member
of no batch the batcher ever hands off (when it is not already sitting in
the accumulator). -/
theorem batchLogs_oversized_dropped (bsz : Nat) (l : sumoLog)
    (hbig : l.line.length > bsz) :
    (∀ (es₁ es₂ : List BatchEvent) (b : sumoLogBatch),
        batchLogs bsz (es₁ ++ BatchEvent.recv l :: es₂) b
          = batchLogs bsz (es₁ ++ es₂) b)
    ∧ ∀ (es : List BatchEvent) (b : sumoLogBatch), l ∉ b.logs →
        ∀ batch ∈ batchLogs bsz es b, l ∉ batch := by
  constructor
  · exact batchLogs_skip_oversized bsz l hbig
  · intro es b hnot batch hb hmem
    rcases batchLogs_mem_source bsz es b batch hb l hmem with h | ⟨_, hlen⟩
    · exact hnot h
    · omega

/-- Witness for C5: threshold 2, a 3-byte record between two 1-byte
records — the run equals the run without it, and it is in no batch. -/
theorem batchLogs_oversized_dropped_witness :
    (({ line := [9, 9, 9], source := "s", time := 0, isPartial := false } :
        sumoLog).line.length > 2)
    ∧ batchLogs 2
        ([BatchEvent.recv { line := [1], source := "s", time := 0, isPartial := false }]
          ++ BatchEvent.recv { line := [9, 9, 9], source := "s", time := 0, isPartial := false }
            :: [BatchEvent.recv { line := [2], source := "s", time := 0, isPartial := false },
                BatchEvent.closeEvt])
        NewSumoLogBatch
      = batchLogs 2
        ([BatchEvent.recv { line := [1], source := "s", time := 0, isPartial := false }]
          ++ [BatchEvent.recv { line := [2], source := "s", time := 0, isPartial := false },
              BatchEvent.closeEvt])
        NewSumoLogBatch
    ∧ ∀ batch ∈ batchLogs 2
        [BatchEvent.recv { line := [9, 9, 9], source := "s", time := 0, isPartial := false },
         BatchEvent.closeEvt]
        NewSumoLogBatch,
        ({ line := [9, 9, 9], source := "s", time := 0, isPartial := false } :
          sumoLog) ∉ batch :=
  ⟨by decide,
    (batchLogs_oversized_dropped 2 _ (by decide)).1 _ _ _,
    (batchLogs_oversized_dropped 2 _ (by decide)).2 _ NewSumoLogBatch (by decide)⟩

lemma batchLogs_fill (bsz : Nat) :
    ∀ (logs : List sumoLog) (b : sumoLogBatch) (rest : List BatchEvent),
      b.sizeBytes = batchBytes b.logs →
      b.sizeBytes + batchBytes logs ≤ bsz →
      batchLogs bsz (logs.map BatchEvent.recv ++ rest) b
        = batchLogs bsz rest
            { logs := b.logs ++ logs, sizeBytes := b.sizeBytes + batchBytes logs }
  | [], b, rest, htrack, hfit => by
      simp [batchBytes]
  | l :: ls, b, rest, htrack, hfit => by
      have hlen : batchBytes (l :: ls) = l.line.length + batchBytes ls := by
        simp [batchBytes]
      rw [hlen] at hfit
      rw [List.map_cons, List.cons_append,
        batchLogs_recv_append _ _ _ _ (by omega) (by omega),
        batchLogs_fill bsz ls _ rest
          (by simp [batchBytes_append, batchBytes_singleton, htrack])
          (by show b.sizeBytes + l.line.length + batchBytes ls ≤ bsz; omega)]
      congr 1
      simp [hlen]
      omega

/-- C6.  A non-empty record sequence whose cumulative payload size fits
the batch-size threshold is delivered by a single flush — timer tick or
record-queue closure — as exactly one batch holding all the records in
arrival order. -/
theorem batchLogs_single_flush (bsz : Nat) (logs : List sumoLog)
    (hne : logs ≠ []) (hfit : batchBytes logs ≤ bsz) :
    batchLogs bsz (logs.map BatchEvent.recv ++ [BatchEvent.tick]) NewSumoLogBatch
      = [logs]
    ∧ batchLogs bsz (logs.map BatchEvent.recv ++ [BatchEvent.closeEvt]) NewSumoLogBatch
      = [logs] := by
  have hfit' : NewSumoLogBatch.sizeBytes + batchBytes logs ≤ bsz := by
    show 0 + batchBytes logs ≤ bsz
    omega
  constructor
  · rw [batchLogs_fill bsz logs NewSumoLogBatch [BatchEvent.tick] rfl hfit',
      batchLogs_tick_flush, batchLogs_nil]
    · show [[] ++ logs] = [logs]
      rw [List.nil_append]
    · show 0 < ([] ++ logs).length
      rw [List.nil_append]
      exact List.length_pos.mpr hne
  · rw [batchLogs_fill bsz logs NewSumoLogBatch [BatchEvent.closeEvt] rfl hfit',
      batchLogs_close]
    show [[] ++ logs] = [logs]
    rw [List.nil_append]

/-- Witness for C6: two records of 1 and 2 bytes, threshold 5 — one batch
with both records, for both flush triggers. -/
theorem batchLogs_single_flush_witness :
    (([{ line := [1], source := "s", time := 0, isPartial := false },
       { line := [2, 3], source := "s", time := 0, isPartial := false }] :
        List sumoLog) ≠ []
      ∧ batchBytes
          [{ line := [1], source := "s", time := 0, isPartial := false },
           { line := [2, 3], source := "s", time := 0, isPartial := false }] ≤ 5)
    ∧ (batchLogs 5
        (([{ line := [1], source := "s", time := 0, isPartial := false },
           { line := [2, 3], source := "s", time := 0, isPartial := false }] :
            List sumoLog).map BatchEvent.recv ++ [BatchEvent.tick]) NewSumoLogBatch
        = [[{ line := [1], source := "s", time := 0, isPartial := false },
            { line := [2, 3], source := "s", time := 0, isPartial := false }]]
      ∧ batchLogs 5
        (([{ line := [1], source := "s", time := 0, isPartial := false },
           { line := [2, 3], source := "s", time := 0, isPartial := false }] :
            List sumoLog).map BatchEvent.recv ++ [BatchEvent.closeEvt]) NewSumoLogBatch
        = [[{ line := [1], source := "s", time := 0, isPartial := false },
            { line := [2, 3], source := "s", time := 0, isPartial := false }]]) :=
  ⟨⟨by decide, by decide⟩, batchLogs_single_flush 5 _ (by decide) (by decide)⟩

/-- C7 counterexample.  The claim requires every request carrying a sent
batch to bear `Content-Type: text/plain`.  Concretely, the retry loop's
successful attempt on a one-record batch issues exactly the `sendLogs`
request — and that request has an empty header list: the unnamed file's
`sendLogs` never calls `request.Header.Add`. -/
theorem sendLogs_request_missing_content_type :
    (handleBatchRetry "https://collectors.example/receiver"
        [{ line := [97], source := "stdout", time := 0, isPartial := false }]
        [Outcome.resp 200]).1
      = [sendLogsRequest "https://collectors.example/receiver"
          [{ line := [97], source := "stdout", time := 0, isPartial := false }]]
    ∧ (sendLogsRequest "https://collectors.example/receiver"
        [{ line := [97], source := "stdout", time := 0, isPartial := false }]).headers
      = []
    ∧ ("Content-Type", "text/plain")
        ∉ (sendLogsRequest "https://collectors.example/receiver"
            [{ line := [97], source := "stdout", time := 0, isPartial := false }]).headers := by
  refine ⟨rfl, rfl, ?_⟩
  decide

/-- C7 amended.  For every non-empty batch: a request built by
`makePostRequest` (driver.go) has body exactly the newline-joined payloads
— gzip-compressed at the configured level when compression is enabled —
and carries `Content-Type: text/plain` plus `Content-Encoding: gzip` when
compression is enabled; a request built by the unnamed file's `sendLogs`
has the same uncompressed body but carries no headers at all. -/
theorem sender_request_formats (cfg : sumoLoggerCfg)
    (gzipFn : Int → List Nat → List Nat) (url : String)
    (logs : List sumoLog) (hne : logs ≠ []) :
    makePostRequest cfg gzipFn logs = some
      { method := "POST"
        url := cfg.httpSourceUrl
        headers := ("Content-Type", "text/plain") ::
          (if cfg.gzipCompression then [("Content-Encoding", "gzip")] else [])
        body := if cfg.gzipCompression then
            gzipFn cfg.gzipCompressionLevel (writeMessage logs)
          else writeMessage logs }
    ∧ sendLogsRequest url logs
      = { method := "POST", url := url, headers := [], body := writeMessage logs }
    ∧ writeMessage logs = (logs.map (fun l => l.line ++ [10])).flatten := by
  refine ⟨?_, rfl, rfl⟩
  unfold makePostRequest
  rw [if_neg (by simpa using hne)]

/-- Witness for the amended C7 at a compressing configuration and a
concrete (identity) compressor. -/
theorem sender_request_formats_witness :
    (([logA] : List sumoLog) ≠ [])
    ∧ (makePostRequest cfgGzip (fun _ d => d) [logA] = some
        { method := "POST"
          url := cfgGzip.httpSourceUrl
          headers := ("Content-Type", "text/plain") ::
            (if cfgGzip.gzipCompression then [("Content-Encoding", "gzip")] else [])
          body := if cfgGzip.gzipCompression then
              (fun _ d => d) cfgGzip.gzipCompressionLevel (writeMessage [logA])
            else writeMessage [logA] }
      ∧ sendLogsRequest "w" [logA]
        = { method := "POST", url := "w", headers := [], body := writeMessage [logA] }
      ∧ writeMessage [logA]
        = (([logA] : List sumoLog).map (fun l => l.line ++ [10])).flatten) :=
  ⟨by decide, sender_request_formats cfgGzip (fun _ d => d) "w" [logA] (by decide)⟩

/-- C8.  `startLoggingInternal` consults the registry first: when an entry
for the file identity exists, it returns the conflict error with the
registry untouched — the fifo is never opened, no logger is built — and
`StartLogging` reports that error synchronously and starts no pipeline
goroutines. -/
theorem startLogging_duplicate_rejected
    (loggers : String → Option sumoLoggerCfg) (file : String)
    (build : Except String sumoLoggerCfg) (l : sumoLoggerCfg)
    (hdup : loggers file = some l) :
    startLoggingInternal loggers file build
      = (loggers, Except.error ("a logger for " ++ file ++ " already exists"))
    ∧ StartLogging loggers file build
      = (loggers, some ("a logger for " ++ file ++ " already exists"), false) := by
  have h : startLoggingInternal loggers file build
      = (loggers, Except.error ("a logger for " ++ file ++ " already exists")) := by
    unfold startLoggingInternal
    rw [hdup]
  exact ⟨h, by unfold StartLogging; rw [h]⟩

/-- Witness for C8 on a one-entry registry. -/
theorem startLogging_duplicate_rejected_witness :
    (regOne "f" = some cfgPlain)
    ∧ (startLoggingInternal regOne "f" (Except.error "fifo")
        = (regOne, Except.error ("a logger for " ++ "f" ++ " already exists"))
      ∧ StartLogging regOne "f" (Except.error "fifo")
        = (regOne, some ("a logger for " ++ "f" ++ " already exists"), false)) :=
  ⟨by simp [regOne],
    startLogging_duplicate_rejected regOne "f" (Except.error "fifo") cfgPlain
      (by simp [regOne])⟩

/-- C9.  When the record queue closes with nothing accumulated since the
last flush, `batchLogs` still sends the empty batch on `logBatchQueue`
before closing it; the unnamed file's `sendLogs` has no zero-record guard
and issues a POST with an empty body for it, while driver.go's
`makePostRequest` returns success without issuing any request on zero
logs. -/
theorem batchLogs_empty_close_posts (bsz : Nat) (es : List BatchEvent)
    (b : sumoLogBatch) (hempty : b.logs = []) (url : String)
    (cfg : sumoLoggerCfg) (gzipFn : Int → List Nat → List Nat) :
    batchLogs bsz (BatchEvent.closeEvt :: es) b = [[]]
    ∧ sendLogsRequest url []
      = { method := "POST", url := url, headers := [], body := [] }
    ∧ makePostRequest cfg gzipFn [] = none := by
  refine ⟨?_, rfl, rfl⟩
  rw [batchLogs_close, hempty]

/-- Witness for C9 at an empty accumulator. -/
theorem batchLogs_empty_close_posts_witness :
    (NewSumoLogBatch.logs = [])
    ∧ (batchLogs 1000 [BatchEvent.closeEvt] NewSumoLogBatch = [[]]
      ∧ sendLogsRequest "u" []
        = { method := "POST", url := "u", headers := [], body := [] }
      ∧ makePostRequest cfgPlain (fun _ d => d) [] = none) :=
  ⟨rfl, batchLogs_empty_close_posts 1000 [] NewSumoLogBatch rfl "u" cfgPlain (fun _ d => d)⟩

/-- C10.  `StopLogging` always returns `nil`; when the file identity is
absent the registry (and everything else) is untouched and no file is
closed; when present, exactly that entry is removed, every other entry is
unchanged, and exactly that logger's input file is closed. -/
theorem stopLogging_spec (loggers : String → Option sumoLoggerCfg)
    (file : String) :
    (StopLogging loggers file).2.1 = none
    ∧ (loggers file = none → StopLogging loggers file = (loggers, none, []))
    ∧ ∀ l, loggers file = some l →
        (StopLogging loggers file).1 file = none
        ∧ (∀ k, k ≠ file → (StopLogging loggers file).1 k = loggers k)
        ∧ (StopLogging loggers file).2.2 = [l] := by
  refine ⟨?_, ?_, ?_⟩
  · unfold StopLogging
    cases h : loggers file <;> simp
  · intro h
    unfold StopLogging
    rw [h]
  · intro l h
    have hs : StopLogging loggers file
        = (fun k => if k = file then none else loggers k, none, [l]) := by
      unfold StopLogging
      rw [h]
    refine ⟨?_, ?_, ?_⟩
    · rw [hs]
      simp
    · intro k hk
      rw [hs]
      simp [hk]
    · rw [hs]

/-- Witness for C10 on a one-entry registry, for both the present and the
absent identity. -/
theorem stopLogging_spec_witness :
    ((StopLogging regOne "f").2.1 = none
      ∧ (StopLogging regOne "f").1 "f" = none
      ∧ (StopLogging regOne "f").1 "g" = regOne "g"
      ∧ (StopLogging regOne "f").2.2 = [cfgPlain])
    ∧ StopLogging (fun _ => (none : Option sumoLoggerCfg)) "f"
      = ((fun _ => (none : Option sumoLoggerCfg)), none, []) :=
  ⟨⟨(stopLogging_spec regOne "f").1,
    ((stopLogging_spec regOne "f").2.2 cfgPlain (by simp [regOne])).1,
    ((stopLogging_spec regOne "f").2.2 cfgPlain (by simp [regOne])).2.1 "g" (by decide),
    ((stopLogging_spec regOne "f").2.2 cfgPlain (by simp [regOne])).2.2⟩,
   (stopLogging_spec (fun _ => none) "f").2.1 rfl⟩
